import Mathlib

/-!
Verification development for the pg-qperf-compare query-plan analyzer.

The definitions below are a shallow embedding of the typed-model core of the
repository (`src/core/metrics.py`, `src/core/analyzer.py`, and the result
shape of `src/core/database.py`).  Raw EXPLAIN plans are modelled as a
JSON-like value type, Python floats as rationals, Python ints as integers,
and the dictionaries used as accumulators as association lists that preserve
insertion order.  Python exceptions are modelled by an explicit error type
returned through `Except`.
-/

namespace PgQperf

/-- Raw JSON-like values as returned by the plan provider (psycopg2 parses the
EXPLAIN (FORMAT JSON) output into nested dicts/lists/numbers/strings). -/
inductive RawVal where
  | int : ℤ → RawVal
  | flt : ℚ → RawVal
  | str : String → RawVal
  | arr : List RawVal → RawVal
  | obj : List (String × RawVal) → RawVal

/-- First-match association-list lookup, modelling `dict` key lookup. -/
def alookup {α : Type} : List (String × α) → String → Option α
  | [], _ => none
  | (k, v) :: rest, key => if k = key then some v else alookup rest key

/-- Key lookup on a raw value: `some` only when the value is a mapping that
contains the key (models `node[key]` / `key in node` on a dict). -/
def RawVal.lookup : RawVal → String → Option RawVal
  | .obj fields, key => alookup fields key
  | _, _ => none

/-- Models `node.get(key, default)` for an integer-valued wire field. -/
def RawVal.getI (v : RawVal) (key : String) (d : ℤ) : ℤ :=
  match v.lookup key with
  | some (.int i) => i
  | _ => d

/-- Models `node.get(key, default)` for a float-valued wire field (the wire
may carry an integer there; Python keeps the numeric value either way). -/
def RawVal.getQ (v : RawVal) (key : String) (d : ℚ) : ℚ :=
  match v.lookup key with
  | some (.flt q) => q
  | some (.int i) => (i : ℚ)
  | _ => d

/-- Models `node.get(key, default)` for a string-valued wire field. -/
def RawVal.getS (v : RawVal) (key : String) (d : String) : String :=
  match v.lookup key with
  | some (.str s) => s
  | _ => d

/-- Scalar fields of the `NodeMetrics` dataclass of `src/core/metrics.py`.
The Lean structure defaults are exactly the defaults used by
`MetricsExtractor.extract_node_metrics` for absent raw keys. -/
structure NodeInfo where
  node_type : String := ""
  actual_rows : ℤ := 0
  actual_time : ℚ := 0
  actual_loops : ℤ := 1
  planned_rows : ℤ := 0
  total_cost : ℚ := 0
  startup_cost : ℚ := 0
  shared_hit_blocks : ℤ := 0
  shared_read_blocks : ℤ := 0
  shared_dirtied_blocks : ℤ := 0
  shared_written_blocks : ℤ := 0
  temp_read_blocks : ℤ := 0
  temp_written_blocks : ℤ := 0
  io_read_time : ℚ := 0
  io_write_time : ℚ := 0
  filter : String := ""
  rows_removed_by_filter : ℤ := 0
  scan_direction : String := ""
  index_name : String := ""
  index_cond : String := ""
  join_type : String := ""
  hash_condition : String := ""
  relation_name : String := ""
deriving DecidableEq

/-- The `NodeMetrics` dataclass: scalar fields plus the `children` list. -/
inductive NodeMetrics where
  | node : NodeInfo → List NodeMetrics → NodeMetrics

def NodeMetrics.info : NodeMetrics → NodeInfo
  | .node i _ => i

def NodeMetrics.children : NodeMetrics → List NodeMetrics
  | .node _ cs => cs

def NodeMetrics.node_type (n : NodeMetrics) : String := n.info.node_type

def NodeMetrics.actual_rows (n : NodeMetrics) : ℤ := n.info.actual_rows

def NodeMetrics.actual_time (n : NodeMetrics) : ℚ := n.info.actual_time

def NodeMetrics.actual_loops (n : NodeMetrics) : ℤ := n.info.actual_loops

def NodeMetrics.planned_rows (n : NodeMetrics) : ℤ := n.info.planned_rows

def NodeMetrics.total_cost (n : NodeMetrics) : ℚ := n.info.total_cost

def NodeMetrics.startup_cost (n : NodeMetrics) : ℚ := n.info.startup_cost

def NodeMetrics.shared_hit_blocks (n : NodeMetrics) : ℤ := n.info.shared_hit_blocks

def NodeMetrics.shared_read_blocks (n : NodeMetrics) : ℤ := n.info.shared_read_blocks

def NodeMetrics.shared_dirtied_blocks (n : NodeMetrics) : ℤ := n.info.shared_dirtied_blocks

def NodeMetrics.shared_written_blocks (n : NodeMetrics) : ℤ := n.info.shared_written_blocks

def NodeMetrics.temp_read_blocks (n : NodeMetrics) : ℤ := n.info.temp_read_blocks

def NodeMetrics.temp_written_blocks (n : NodeMetrics) : ℤ := n.info.temp_written_blocks

def NodeMetrics.filter (n : NodeMetrics) : String := n.info.filter

def NodeMetrics.rows_removed_by_filter (n : NodeMetrics) : ℤ := n.info.rows_removed_by_filter

def NodeMetrics.hash_condition (n : NodeMetrics) : String := n.info.hash_condition

def NodeMetrics.relation_name (n : NodeMetrics) : String := n.info.relation_name

/-- Field mapping of `MetricsExtractor.extract_node_metrics`: every raw key
is read with `node.get(key, default)`, so absent keys yield the default. -/
def extractInfo (v : RawVal) : NodeInfo :=
  { node_type := v.getS "Node Type" ""
    actual_rows := v.getI "Actual Rows" 0
    actual_time := v.getQ "Actual Total Time" 0
    actual_loops := v.getI "Actual Loops" 1
    planned_rows := v.getI "Plan Rows" 0
    total_cost := v.getQ "Total Cost" 0
    startup_cost := v.getQ "Startup Cost" 0
    shared_hit_blocks := v.getI "Shared Hit Blocks" 0
    shared_read_blocks := v.getI "Shared Read Blocks" 0
    shared_dirtied_blocks := v.getI "Shared Dirtied Blocks" 0
    shared_written_blocks := v.getI "Shared Written Blocks" 0
    temp_read_blocks := v.getI "Temp Read Blocks" 0
    temp_written_blocks := v.getI "Temp Written Blocks" 0
    io_read_time := v.getQ "I/O Read Time" 0
    io_write_time := v.getQ "I/O Write Time" 0
    filter := v.getS "Filter" ""
    rows_removed_by_filter := v.getI "Rows Removed by Filter" 0
    scan_direction := v.getS "Scan Direction" ""
    index_name := v.getS "Index Name" ""
    index_cond := v.getS "Index Cond" ""
    join_type := v.getS "Join Type" ""
    hash_condition := v.getS "Hash Cond" ""
    relation_name := v.getS "Relation Name" "" }

/-- Python exceptions that the embedded code can raise.  The constructor
`malformedPlanError` is modelled from the spec: §7 of the specification names
a distinct `MalformedPlanError` for a plan missing its top-level structure,
but no such exception class exists anywhere in the repository; it is included
here only so the spec's claimed failure mode can be stated and compared with
the errors the code actually raises. -/
inductive PyErr where
  | keyError : String → PyErr
  | attributeError : PyErr
  | typeError : PyErr
  | indexError : PyErr
  | malformedPlanError : PyErr
deriving DecidableEq

def charsPrefixOf : List Char → List Char → Bool
  | [], _ => true
  | _ :: _, [] => false
  | a :: as, b :: bs => a = b && charsPrefixOf as bs

/-- Models Python substring containment `needle in hay`. -/
def strContains (needle : List Char) : List Char → Bool
  | [] => charsPrefixOf needle []
  | c :: rest => charsPrefixOf needle (c :: rest) || strContains needle rest

/-- Models `'Plans' in node` when `node` is a raw list: Python list
membership holds only when an element equals the string `"Plans"`. -/
def rawListHasPlansStr : List RawVal → Bool
  | [] => false
  | .str s :: rest => s = "Plans" || rawListHasPlansStr rest
  | _ :: rest => rawListHasPlansStr rest

mutual

/-- `MetricsExtractor.extract_node_metrics`: on a mapping, extract the
children from the `Plans` entry when present and map the node's fields.  A
non-mapping node fails exactly as Python does: `'Plans' in node` raises
`TypeError` on a number; on a string or list the membership test runs first,
and when it succeeds `node['Plans']` raises `TypeError` (string index into a
string or list), otherwise the following `node.get` raises `AttributeError`. -/
def extract_node_metrics : RawVal → Except PyErr NodeMetrics
  | .obj fields =>
    match extractPlansEntry fields with
    | .error e => .error e
    | .ok children => .ok (.node (extractInfo (.obj fields)) children)
  | .int _ => .error PyErr.typeError
  | .flt _ => .error PyErr.typeError
  | .str s =>
    if strContains "Plans".data s.data then .error PyErr.typeError
    else .error PyErr.attributeError
  | .arr l =>
    if rawListHasPlansStr l then .error PyErr.typeError
    else .error PyErr.attributeError

/-- Scan the raw node's fields for the `Plans` key (models `'Plans' in node`
followed by iteration over `node['Plans']`). -/
def extractPlansEntry : List (String × RawVal) → Except PyErr (List NodeMetrics)
  | [] => .ok []
  | (k, v) :: rest => if k = "Plans" then extractPlansValue v else extractPlansEntry rest

/-- Iterating `node['Plans']`: a raw list iterates its elements.  An empty
string or empty mapping iterates nothing, yielding no children; a non-empty
string iterates one-character strings and a non-empty mapping iterates its
keys, so the first recursive extraction fails as a string node does; a
number is not iterable (`TypeError`). -/
def extractPlansValue : RawVal → Except PyErr (List NodeMetrics)
  | .arr l => extractPlansList l
  | .str s => if s = "" then .ok [] else .error PyErr.attributeError
  | .obj [] => .ok []
  | .obj ((k, _) :: _) =>
    if strContains "Plans".data k.data then .error PyErr.typeError
    else .error PyErr.attributeError
  | _ => .error PyErr.typeError

def extractPlansList : List RawVal → Except PyErr (List NodeMetrics)
  | [] => .ok []
  | v :: rest =>
    match extract_node_metrics v with
    | .error e => .error e
    | .ok n =>
      match extractPlansList rest with
      | .error e => .error e
      | .ok ns => .ok (n :: ns)

end

/-- The six-counter dictionary returned by `MetricsExtractor.extract_io_metrics`. -/
structure IOMetrics where
  shared_hit_blocks : ℤ
  shared_read_blocks : ℤ
  shared_dirtied_blocks : ℤ
  shared_written_blocks : ℤ
  temp_read_blocks : ℤ
  temp_written_blocks : ℤ
deriving DecidableEq

/-- Pointwise addition of the six counters (the `metrics[key] += value` loop). -/
def IOMetrics.add (a b : IOMetrics) : IOMetrics :=
  ⟨a.shared_hit_blocks + b.shared_hit_blocks,
   a.shared_read_blocks + b.shared_read_blocks,
   a.shared_dirtied_blocks + b.shared_dirtied_blocks,
   a.shared_written_blocks + b.shared_written_blocks,
   a.temp_read_blocks + b.temp_read_blocks,
   a.temp_written_blocks + b.temp_written_blocks⟩

/-- The initial dictionary of `extract_io_metrics`: the node's own counters. -/
def ownCounters (i : NodeInfo) : IOMetrics :=
  ⟨i.shared_hit_blocks, i.shared_read_blocks, i.shared_dirtied_blocks,
   i.shared_written_blocks, i.temp_read_blocks, i.temp_written_blocks⟩

mutual

/-- `MetricsExtractor.extract_io_metrics`: start from the node's own counters
and add each child's recursively extracted counters in order. -/
def extract_io_metrics : NodeMetrics → IOMetrics
  | .node i cs => ioAddChildren (ownCounters i) cs

def ioAddChildren : IOMetrics → List NodeMetrics → IOMetrics
  | m, [] => m
  | m, c :: rest => ioAddChildren (m.add (extract_io_metrics c)) rest

end

/-- The four running sums mutated by the `extract_recursive` closure of
`MetricsExtractor.extract_buffer_stats`. -/
structure BufAcc where
  buffers_hit : ℤ := 0
  buffers_read : ℤ := 0
  buffers_dirtied : ℤ := 0
  buffers_written : ℤ := 0
deriving DecidableEq

/-- The dictionary returned by `MetricsExtractor.extract_buffer_stats`. -/
structure BufferStats where
  buffers_hit : ℤ
  buffers_read : ℤ
  buffers_dirtied : ℤ
  buffers_written : ℤ
  buffers_hit_rate : ℚ
deriving DecidableEq

mutual

/-- The `extract_recursive` closure: add this node's shared counters to the
running sums, then recurse into the children in order. -/
def bufferRecurse : NodeMetrics → BufAcc → BufAcc
  | .node i cs, a =>
    bufferRecurseList cs
      { buffers_hit := a.buffers_hit + i.shared_hit_blocks
        buffers_read := a.buffers_read + i.shared_read_blocks
        buffers_dirtied := a.buffers_dirtied + i.shared_dirtied_blocks
        buffers_written := a.buffers_written + i.shared_written_blocks }

def bufferRecurseList : List NodeMetrics → BufAcc → BufAcc
  | [], a => a
  | c :: rest, a => bufferRecurseList rest (bufferRecurse c a)

end

/-- `MetricsExtractor.extract_buffer_stats`: tree-wide shared-buffer sums,
with `buffers_hit_rate = hit/(hit+read)*100` guarded by `total_buffers > 0`
(the rate keeps its initial value `0.0` otherwise). -/
def extract_buffer_stats (n : NodeMetrics) : BufferStats :=
  let a := bufferRecurse n { buffers_hit := 0, buffers_read := 0, buffers_dirtied := 0, buffers_written := 0 }
  let total_buffers := a.buffers_hit + a.buffers_read
  { buffers_hit := a.buffers_hit
    buffers_read := a.buffers_read
    buffers_dirtied := a.buffers_dirtied
    buffers_written := a.buffers_written
    buffers_hit_rate :=
      if total_buffers > 0 then ((a.buffers_hit : ℚ) / (total_buffers : ℚ)) * 100 else 0 }

/-- Per-node-type aggregate of `MetricsExtractor.analyze_node_type_stats`. -/
structure NodeTypeStat where
  count : ℕ := 0
  total_time : ℚ := 0
  total_rows : ℤ := 0
  total_cost : ℚ := 0
deriving DecidableEq

/-- Models `if node_type not in stats: stats[node_type] = zeros` (a Python
dict appends a new key at the end). -/
def zeroNodeTypeStat : NodeTypeStat :=
  { count := 0, total_time := 0, total_rows := 0, total_cost := 0 }

def ntsInit (stats : List (String × NodeTypeStat)) (k : String) :
    List (String × NodeTypeStat) :=
  if (alookup stats k).isSome then stats else stats ++ [(k, zeroNodeTypeStat)]

/-- Models the four in-place `stats[node_type][...] += ...` updates. -/
def ntsBump (stats : List (String × NodeTypeStat)) (i : NodeInfo) :
    List (String × NodeTypeStat) :=
  (ntsInit stats i.node_type).map fun e =>
    if e.1 = i.node_type then
      (e.1, { count := e.2.count + 1
              total_time := e.2.total_time + i.actual_time
              total_rows := e.2.total_rows + i.actual_rows
              total_cost := e.2.total_cost + i.total_cost })
    else e

mutual

/-- `MetricsExtractor.analyze_node_type_stats` with its accumulator dict. -/
def analyzeNodeTypeStatsAux : NodeMetrics → List (String × NodeTypeStat) →
    List (String × NodeTypeStat)
  | .node i cs, stats => analyzeNodeTypeStatsList cs (ntsBump stats i)

def analyzeNodeTypeStatsList : List NodeMetrics → List (String × NodeTypeStat) →
    List (String × NodeTypeStat)
  | [], stats => stats
  | c :: rest, stats => analyzeNodeTypeStatsList rest (analyzeNodeTypeStatsAux c stats)

end

/-- `analyze_node_type_stats(node)` with the default `stats=None` (fresh dict). -/
def analyze_node_type_stats (n : NodeMetrics) : List (String × NodeTypeStat) :=
  analyzeNodeTypeStatsAux n []

/-- Dictionary access `stats[T]`, with the zero record for an absent key. -/
def lookupNodeTypeStat (stats : List (String × NodeTypeStat)) (k : String) :
    NodeTypeStat :=
  (alookup stats k).getD zeroNodeTypeStat

/-- Per-table aggregate of `MetricsExtractor.analyze_table_stats`. -/
structure TableStat where
  scan_type : String
  rows : ℤ
  width : ℤ
  cost : ℚ
deriving DecidableEq

/-- The per-node update of `analyze_table_stats`: first sight records the
node's scan type/rows/cost; a repeat visit accumulates rows and cost and
upgrades `scan_type` only from a `Seq`-type to an `Index`-type scan. -/
def tableBump (stats : List (String × TableStat)) (i : NodeInfo) :
    List (String × TableStat) :=
  if i.relation_name = "" then stats
  else if (alookup stats i.relation_name).isSome then
    stats.map fun e =>
      if e.1 = i.relation_name then
        (e.1, { scan_type :=
                  if strContains "Index".data i.node_type.data &&
                     strContains "Seq".data e.2.scan_type.data then i.node_type
                  else e.2.scan_type
                rows := e.2.rows + i.actual_rows
                width := e.2.width
                cost := e.2.cost + i.total_cost })
      else e
  else
    stats ++ [(i.relation_name,
      { scan_type := i.node_type, rows := i.actual_rows, width := 0, cost := i.total_cost })]

mutual

/-- `MetricsExtractor.analyze_table_stats` with its accumulator dict. -/
def analyzeTableStatsAux : NodeMetrics → List (String × TableStat) →
    List (String × TableStat)
  | .node i cs, stats => analyzeTableStatsList cs (tableBump stats i)

def analyzeTableStatsList : List NodeMetrics → List (String × TableStat) →
    List (String × TableStat)
  | [], stats => stats
  | c :: rest, stats => analyzeTableStatsList rest (analyzeTableStatsAux c stats)

end

/-- `analyze_table_stats(node)` with the default `stats=None` (fresh dict). -/
def analyze_table_stats (n : NodeMetrics) : List (String × TableStat) :=
  analyzeTableStatsAux n []

/-- The `PlanMetrics` dataclass of `src/core/metrics.py`. -/
structure PlanMetrics where
  planning_time : ℚ
  execution_time : ℚ
  total_time : ℚ
  row_count : ℤ
  node_metrics : NodeMetrics
  io_metrics : IOMetrics
  node_type_stats : List (String × NodeTypeStat)
  table_stats : List (String × TableStat)
  buffer_stats : BufferStats

/-- The body of `calculate_performance_metrics` after the list unwrap:
`plan.get(...)` demands a mapping (`AttributeError` otherwise), `plan['Plan']`
demands the key (a plain `KeyError` when absent), and any error raised while
extracting the tree propagates.  On success `row_count` is the root node's
`actual_rows`. -/
def calcFromUnwrapped : RawVal → Except PyErr PlanMetrics
  | .obj fields =>
    let plan := RawVal.obj fields
    let planning_time := plan.getQ "Planning Time" 0
    let execution_time := plan.getQ "Execution Time" 0
    match alookup fields "Plan" with
    | none => .error (PyErr.keyError "Plan")
    | some planRoot =>
      match extract_node_metrics planRoot with
      | .error e => .error e
      | .ok node_metrics =>
        .ok { planning_time := planning_time
              execution_time := execution_time
              total_time := planning_time + execution_time
              row_count := node_metrics.actual_rows
              node_metrics := node_metrics
              io_metrics := extract_io_metrics node_metrics
              node_type_stats := analyze_node_type_stats node_metrics
              table_stats := analyze_table_stats node_metrics
              buffer_stats := extract_buffer_stats node_metrics }
  | _ => .error PyErr.attributeError

/-- `MetricsExtractor.calculate_performance_metrics`: unwrap a list-shaped
plan (`plan = plan[0]`) and process the resulting raw node. -/
def calculate_performance_metrics (plan : RawVal) : Except PyErr PlanMetrics :=
  match plan with
  | .arr [] => .error PyErr.indexError
  | .arr (p :: _) => calcFromUnwrapped p
  | p => calcFromUnwrapped p

/-- Shape of the dictionary returned by `DatabaseManager.execute_explain`:
the raw plan together with the row count obtained independently by
re-executing the query (`len(cursor.fetchall())`). -/
structure ExplainResult where
  plan : RawVal
  row_count : ℤ

/-- The metrics step of `QueryAnalyzer.analyze_query`: only `result['plan']`
is passed to the metrics calculation. -/
def analyze_query_metrics (result : ExplainResult) : Except PyErr PlanMetrics :=
  calculate_performance_metrics result.plan

/-- Payload of the problem-description f-strings built by
`QueryAnalyzer.analyze_node_problems`; each constructor carries exactly the
values interpolated into the corresponding message. -/
inductive ProblemDesc where
  | seqScanLargeTable : ℤ → ProblemDesc
  | poorRowEstimation : String → ℤ → ℤ → ℚ → ProblemDesc
  | expensiveSort : ℤ → ProblemDesc
  | nestedLoopLargeRows : ℤ → ProblemDesc
  | rowsRemovedByFilter : ℤ → ProblemDesc
deriving DecidableEq

/-- The `Problem` dataclass of `src/core/models.py`. -/
structure Problem where
  description : ProblemDesc
  severity : String := "warning"
deriving DecidableEq

/-- The five rule checks applied to a single node, in source order. -/
def nodeProblems (n : NodeMetrics) : List Problem :=
  (if n.node_type = "Seq Scan" ∧ n.actual_rows > 1000 then
    [{ severity := "HIGH", description := .seqScanLargeTable n.actual_rows }]
   else []) ++
  (if n.planned_rows > 0 ∧
      ((n.actual_rows : ℚ) / (n.planned_rows : ℚ) > 10 ∨
       (n.actual_rows : ℚ) / (n.planned_rows : ℚ) < 1 / 10) then
    [{ severity := "MEDIUM",
       description := .poorRowEstimation n.node_type n.planned_rows n.actual_rows
         ((n.actual_rows : ℚ) / (n.planned_rows : ℚ)) }]
   else []) ++
  (if n.node_type = "Sort" ∧ n.actual_rows > 1000 then
    [{ severity := "MEDIUM", description := .expensiveSort n.actual_rows }]
   else []) ++
  (if n.node_type = "Nested Loop" ∧ n.actual_rows > 1000 then
    [{ severity := "HIGH", description := .nestedLoopLargeRows n.actual_rows }]
   else []) ++
  (if n.rows_removed_by_filter > 1000 then
    [{ severity := "MEDIUM", description := .rowsRemovedByFilter n.rows_removed_by_filter }]
   else [])

mutual

/-- `QueryAnalyzer.analyze_node_problems`: pre-order traversal appending each
node's rule hits. -/
def analyze_node_problems : NodeMetrics → List Problem
  | .node i cs => nodeProblems (.node i cs) ++ analyzeProblemsList cs

def analyzeProblemsList : List NodeMetrics → List Problem
  | [] => []
  | c :: rest => analyze_node_problems c ++ analyzeProblemsList rest

end

/-- The `IndexRecommendation` dataclass of `src/core/models.py`. -/
structure IndexRecommendation where
  table : String
  columns : List String
  reason : String
deriving DecidableEq

def isWordChar (c : Char) : Bool := c.isAlphanum || c = '_'

def isSpaceChar (c : Char) : Bool :=
  c = ' ' || c = '\t' || c = '\n' || c = '\r' || c = '\x0b' || c = '\x0c'

/-- Models `condition.split(' = ')`: leftmost non-overlapping splitting on
the literal three-character separator. -/
def splitEq : List Char → List (List Char)
  | [] => [[]]
  | ' ' :: '=' :: ' ' :: rest => [] :: splitEq rest
  | c :: rest =>
    match splitEq rest with
    | p :: ps => (c :: p) :: ps
    | [] => [[c]]

/-- Models `re.search(r'(\w+)\.(\w+)', part)`: the leftmost word-run/dot/
word-run match, returning the two capture groups. -/
def searchDot : List Char → List Char → Option (String × String)
  | _, [] => none
  | found, '.' :: rest =>
    if found ≠ [] then
      let run2 := rest.takeWhile isWordChar
      if run2 ≠ [] then some (String.mk found.reverse, String.mk run2)
      else searchDot [] rest
    else searchDot [] rest
  | found, c :: rest => if isWordChar c then searchDot (c :: found) rest else searchDot [] rest

/-- `QueryAnalyzer._extract_join_columns`: split on `' = '` and collect the
column part of the first `table.column` reference of each side. -/
def extract_join_columns (condition : String) : List String :=
  (splitEq condition.data).filterMap (fun part => (searchDot [] part).map (fun m => m.2))

/-- The `\s+OR\s+` alternative of the split pattern, tried at a position
where the leading whitespace run has already been consumed. -/
def trySepOr : List Char → Option (List Char)
  | 'O' :: 'R' :: c :: r2 => if isSpaceChar c then some (r2.dropWhile isSpaceChar) else none
  | _ => none

/-- The part of the separator pattern after the mandatory leading whitespace:
either `AND\s+` (tried first) or `OR\s+`. -/
def trySepAfterSpaces : List Char → Option (List Char)
  | 'A' :: 'N' :: 'D' :: c :: r2 =>
    if isSpaceChar c then some (r2.dropWhile isSpaceChar)
    else trySepOr ('A' :: 'N' :: 'D' :: c :: r2)
  | r => trySepOr r

/-- One attempt to match `\s+AND\s+|\s+OR\s+` at the start of `s`, returning
the remainder after the separator when it matches. -/
def trySepMatch (s : List Char) : Option (List Char) :=
  if s.takeWhile isSpaceChar = [] then none
  else trySepAfterSpaces (s.dropWhile isSpaceChar)

def dropWhileLengthLe (p : Char → Bool) (l : List Char) :
    (l.dropWhile p).length ≤ l.length := by
  induction l with
  | nil => simp
  | cons c rest ih =>
    rw [List.dropWhile_cons]
    split
    · simp only [List.length_cons]
      omega
    · simp

def trySepOrLengthLe (r out : List Char) (h : trySepOr r = some out) :
    out.length ≤ r.length := by
  unfold trySepOr at h
  split at h
  next c r2 =>
    split at h
    · cases h
      have h2 := dropWhileLengthLe isSpaceChar r2
      simp only [List.length_cons]
      omega
    · cases h
  next => cases h

def takeWhileNeNilLengthLt (p : Char → Bool) (l : List Char) (h : l.takeWhile p ≠ []) :
    (l.dropWhile p).length < l.length := by
  cases l with
  | nil => simp at h
  | cons c rest =>
    by_cases hc : p c
    · rw [List.dropWhile_cons_of_pos hc]
      have h2 := dropWhileLengthLe p rest
      simp only [List.length_cons]
      omega
    · rw [List.takeWhile_cons_of_neg hc] at h
      simp at h

def trySepAfterSpacesLengthLe (r out : List Char) (h : trySepAfterSpaces r = some out) :
    out.length ≤ r.length := by
  unfold trySepAfterSpaces at h
  split at h
  · split at h
    · cases h
      rename_i c r2 hc
      have h2 := dropWhileLengthLe isSpaceChar r2
      simp only [List.length_cons]
      omega
    · exact trySepOrLengthLe _ _ h
  · exact trySepOrLengthLe _ _ h

def trySepMatchLengthLt (s out : List Char) (h : trySepMatch s = some out) :
    out.length < s.length := by
  unfold trySepMatch at h
  split at h
  · cases h
  · have h2 := takeWhileNeNilLengthLt isSpaceChar s (by assumption)
    have h3 := trySepAfterSpacesLengthLe _ _ h
    omega

/-- Models `re.split(r'\s+AND\s+|\s+OR\s+', condition)`: scan left to right,
splitting at each leftmost separator match. -/
def splitCond : List Char → List (List Char)
  | [] => [[]]
  | c :: rest =>
    match h : trySepMatch (c :: rest) with
    | some r2 => [] :: splitCond r2
    | none =>
      match splitCond rest with
      | p :: ps => (c :: p) :: ps
      | [] => [[c]]
termination_by s => s.length
decreasing_by
  · exact trySepMatchLengthLt _ _ h
  · simp

/-- Models `re.search(r'(\w+)\s*[=<>]', part)`: the leftmost word run that is
followed (after optional whitespace) by a comparison operator. -/
def searchColOp : List Char → Option String
  | [] => none
  | c :: rest =>
    if isWordChar c then
      match (rest.dropWhile isWordChar).dropWhile isSpaceChar with
      | op :: _ =>
        if op = '=' || op = '<' || op = '>' then
          some (String.mk (c :: rest.takeWhile isWordChar))
        else searchColOp (rest.dropWhile isWordChar)
      | [] => none
    else searchColOp rest
termination_by s => s.length
decreasing_by
  · have h2 := dropWhileLengthLe isWordChar rest
    simp only [List.length_cons]
    omega
  · simp

/-- `QueryAnalyzer._extract_columns_from_condition`: split the filter text on
`AND`/`OR` boundaries and take the token preceding a comparison operator in
each fragment. -/
def extract_columns_from_condition (condition : String) : List String :=
  (splitCond condition.data).filterMap searchColOp

/-- The sequential-scan rule of `QueryAnalyzer.analyze_index_recommendations`. -/
def seqScanRecs (n : NodeMetrics) : List IndexRecommendation :=
  if n.node_type = "Seq Scan" ∧ n.actual_rows > 1000 then
    if n.filter ≠ "" then
      let columns := extract_columns_from_condition n.filter
      if columns ≠ [] then
        [{ table := n.relation_name, columns := columns,
           reason := "High row count sequential scan with filter on " ++
             String.intercalate ", " columns }]
      else []
    else []
  else []

/-- The hash-join rule of `QueryAnalyzer.analyze_index_recommendations`: one
recommendation per child with a non-empty `relation_name`, each carrying all
columns extracted from the hash condition. -/
def hashJoinRecs (n : NodeMetrics) : List IndexRecommendation :=
  if n.node_type = "Hash Join" ∧ n.hash_condition ≠ "" then
    let columns := extract_join_columns n.hash_condition
    if columns ≠ [] then
      n.children.filterMap (fun c =>
        if c.relation_name ≠ "" then
          some { table := c.relation_name, columns := columns,
                 reason := "Hash join condition on " ++ String.intercalate ", " columns }
        else none)
    else []
  else []

/-- The recommendations contributed by one node, in source order. -/
def nodeRecommendations (n : NodeMetrics) : List IndexRecommendation :=
  seqScanRecs n ++ hashJoinRecs n

mutual

/-- `QueryAnalyzer.analyze_index_recommendations`: pre-order traversal
appending each node's recommendations; no deduplication is performed. -/
def analyze_index_recommendations : NodeMetrics → List IndexRecommendation
  | .node i cs => nodeRecommendations (.node i cs) ++ analyzeRecsList cs

def analyzeRecsList : List NodeMetrics → List IndexRecommendation
  | [] => []
  | c :: rest => analyze_index_recommendations c ++ analyzeRecsList rest

end

/-- The improvement percentages computed by `QueryAnalyzer.compare_queries`. -/
structure Improvements where
  execution_time : ℚ
  planning_time : ℚ
deriving DecidableEq

/-- The pure comparison step of `QueryAnalyzer.compare_queries` (lines
155-159): `(original - optimized) / original * 100`, guarded by
`original > 0`, independently for execution and planning time. -/
def compare_improvements (original optimized : PlanMetrics) : Improvements :=
  { execution_time :=
      if original.execution_time > 0 then
        (original.execution_time - optimized.execution_time) /
          original.execution_time * 100
      else 0
    planning_time :=
      if original.planning_time > 0 then
        (original.planning_time - optimized.planning_time) /
          original.planning_time * 100
      else 0 }

mutual

/-- Reference pre-order traversal of a plan tree, used to state tree-wide
sums and counts independently of the accumulator-passing source code. -/
def flatten : NodeMetrics → List NodeMetrics
  | .node i cs => .node i cs :: flattenList cs

def flattenList : List NodeMetrics → List NodeMetrics
  | [] => []
  | c :: rest => flatten c ++ flattenList rest

end

/-- All shared hit/read counters in the tree are non-negative (true of every
real plan: the wire format carries block counts). -/
def CountersNonneg (t : NodeMetrics) : Prop :=
  ∀ n ∈ flatten t, 0 ≤ n.info.shared_hit_blocks ∧ 0 ≤ n.info.shared_read_blocks


/-- Concrete provider result used for claim C1: the plan's root node reports
7 actual rows while the independently obtained row count is 100. -/
def c1result : ExplainResult :=
  { plan := .obj [("Planning Time", .flt 1), ("Execution Time", .flt 2),
      ("Plan", .obj [("Node Type", .str "Seq Scan"), ("Actual Rows", .int 7)])],
    row_count := 100 }

/-- Concrete metrics record used for claim C6 witnesses. -/
def simpleMetrics (p e : ℚ) : PlanMetrics :=
  { planning_time := p, execution_time := e, total_time := p + e, row_count := 0,
    node_metrics := .node {} [], io_metrics := ⟨0, 0, 0, 0, 0, 0⟩,
    node_type_stats := [], table_stats := [], buffer_stats := ⟨0, 0, 0, 0, 0⟩ }

/-- Single-node tree used for claim C7: a sequential scan returning 5000
rows, all other fields at their extraction defaults. -/
def c7node : NodeMetrics := .node { node_type := "Seq Scan", actual_rows := 5000 } []


/-- Concrete raw plan node used for claim C4: a Merge Join carrying a
non-empty `Merge Cond` with `table.column` pairs on both sides, and children
with non-empty relation names. -/
def c4raw : RawVal :=
  .obj [("Node Type", .str "Merge Join"), ("Merge Cond", .str "a.x = b.y"),
    ("Plans", .arr [
      .obj [("Node Type", .str "Seq Scan"), ("Relation Name", .str "a")],
      .obj [("Node Type", .str "Seq Scan"), ("Relation Name", .str "b")]])]

/-- Concrete tree used for the claim C4 witness: a hash join over one scan. -/
def c4wtree : NodeMetrics :=
  .node { node_type := "Hash Join", hash_condition := "a.x = b.y" }
    [.node { relation_name := "orders" } []]

/-- The single recommendation emitted for `c4wtree`. -/
def c4wrec : IndexRecommendation :=
  { table := "orders", columns := ["x", "y"], reason := "Hash join condition on x, y" }


/-- Tree-wide sum of `shared_hit_blocks` over a node list. -/
def sumHit (ns : List NodeMetrics) : ℤ := (ns.map NodeMetrics.shared_hit_blocks).sum

/-- Tree-wide sum of `shared_read_blocks` over a node list. -/
def sumRead (ns : List NodeMetrics) : ℤ := (ns.map NodeMetrics.shared_read_blocks).sum

/-- Tree-wide sum of `shared_dirtied_blocks` over a node list. -/
def sumDirtied (ns : List NodeMetrics) : ℤ := (ns.map NodeMetrics.shared_dirtied_blocks).sum

/-- Tree-wide sum of `shared_written_blocks` over a node list. -/
def sumWritten (ns : List NodeMetrics) : ℤ := (ns.map NodeMetrics.shared_written_blocks).sum

/-- Tree-wide sum of `temp_read_blocks` over a node list. -/
def sumTempRead (ns : List NodeMetrics) : ℤ := (ns.map NodeMetrics.temp_read_blocks).sum

/-- Tree-wide sum of `temp_written_blocks` over a node list. -/
def sumTempWritten (ns : List NodeMetrics) : ℤ := (ns.map NodeMetrics.temp_written_blocks).sum

/-- The six I/O sums of a node list, packaged as an `IOMetrics` record. -/
def ioOfList (ns : List NodeMetrics) : IOMetrics :=
  ⟨sumHit ns, sumRead ns, sumDirtied ns, sumWritten ns, sumTempRead ns, sumTempWritten ns⟩

/-- Single node used for the claim C5 counterexample: one read block, no
hits. -/
def c5node : NodeMetrics := .node { shared_read_blocks := 1 } []

/-- Single node used for the claim C5 witness: one hit and three reads. -/
def c5wnode : NodeMetrics := .node { shared_hit_blocks := 1, shared_read_blocks := 3 } []


/-- Pointwise addition of per-type aggregates. -/
def addStat (a b : NodeTypeStat) : NodeTypeStat :=
  ⟨a.count + b.count, a.total_time + b.total_time,
   a.total_rows + b.total_rows, a.total_cost + b.total_cost⟩

/-- The reference aggregate of type `T` over a node list: how many nodes have
that type, and the sums of their times, rows and costs. -/
def statOfList (T : String) (ns : List NodeMetrics) : NodeTypeStat :=
  ⟨((ns.filter (fun n => n.node_type = T)).length),
   (((ns.filter (fun n => n.node_type = T)).map NodeMetrics.actual_time).sum),
   (((ns.filter (fun n => n.node_type = T)).map NodeMetrics.actual_rows).sum),
   (((ns.filter (fun n => n.node_type = T)).map NodeMetrics.total_cost).sum)⟩


/-- Recognizer for problems produced by the poor-row-estimate rule. -/
def isPoorRowEstimate (p : Problem) : Bool :=
  match p.description with
  | .poorRowEstimation _ _ _ _ => true
  | _ => false

/-- C1 counterexample: on a concrete provider result whose independent row
count is 100 but whose root plan node reports 7 actual rows, the computed
`PlanMetrics.row_count` is 7 — the root node's `actual_rows`, not the
independently obtained count, contradicting the claim. -/
theorem claim_C1_cex :
    (analyze_query_metrics c1result).map (fun m => m.row_count) = Except.ok 7 ∧
    c1result.row_count = 100 := ⟨rfl, rfl⟩

/-- C1 (amended): the metrics produced by `analyze_query` do not depend on
the provider's independently obtained row count at all, and whenever metrics
are produced, `row_count` equals the root plan node's `actual_rows`. -/
theorem claim_C1 : ∀ (p : RawVal) (c₁ c₂ : ℤ),
    analyze_query_metrics ⟨p, c₁⟩ = analyze_query_metrics ⟨p, c₂⟩ ∧
    (analyze_query_metrics ⟨p, c₁⟩).map (fun m => m.row_count) =
      (analyze_query_metrics ⟨p, c₁⟩).map (fun m => m.node_metrics.actual_rows) := by
  intro p c₁ c₂
  refine ⟨rfl, ?_⟩
  show (calculate_performance_metrics p).map _ = (calculate_performance_metrics p).map _
  have base : ∀ v : RawVal, (calcFromUnwrapped v).map (fun m => m.row_count) =
      (calcFromUnwrapped v).map (fun m => m.node_metrics.actual_rows) := by
    intro v
    cases v <;> simp only [calcFromUnwrapped, Except.map]
    case obj fields =>
      cases h : alookup fields "Plan" with
      | none => simp [h, Except.map]
      | some pr =>
        cases he : extract_node_metrics pr <;> simp [h, he, Except.map]
  cases p with
  | arr l => cases l with
    | nil => rfl
    | cons x xs => exact base x
  | int z => exact base (.int z)
  | flt q => exact base (.flt q)
  | str a => exact base (.str a)
  | obj fields => exact base (.obj fields)

/-- C6: both improvement percentages equal
`(original - optimized) / original * 100`, and each is independently defined
as 0 when its original-side denominator is 0; the computation is total. -/
theorem claim_C6 : ∀ original optimized : PlanMetrics,
    0 ≤ original.execution_time → 0 ≤ original.planning_time →
    (compare_improvements original optimized).execution_time =
      (if original.execution_time = 0 then 0
       else (original.execution_time - optimized.execution_time) /
         original.execution_time * 100) ∧
    (compare_improvements original optimized).planning_time =
      (if original.planning_time = 0 then 0
       else (original.planning_time - optimized.planning_time) /
         original.planning_time * 100) := by
  intro o p he hp
  constructor
  · by_cases h : o.execution_time = 0
    · simp [compare_improvements, h]
    · have hpos : o.execution_time > 0 := lt_of_le_of_ne he (Ne.symm h)
      simp [compare_improvements, h, hpos]
  · by_cases h : o.planning_time = 0
    · simp [compare_improvements, h]
    · have hpos : o.planning_time > 0 := lt_of_le_of_ne hp (Ne.symm h)
      simp [compare_improvements, h, hpos]

/-- C6 witness: original execution time 4 versus optimized 2 gives a 50 %
improvement, and a 0 versus 0 comparison gives 0 rather than an error. -/
theorem claim_C6_witness :
    (compare_improvements (simpleMetrics 1 4) (simpleMetrics 1 2)).execution_time = 50 ∧
    (compare_improvements (simpleMetrics 0 0) (simpleMetrics 0 0)).execution_time = 0 := by
  obtain ⟨he, -⟩ := claim_C6 (simpleMetrics 1 4) (simpleMetrics 1 2)
    (by norm_num [simpleMetrics]) (by norm_num [simpleMetrics])
  obtain ⟨he0, -⟩ := claim_C6 (simpleMetrics 0 0) (simpleMetrics 0 0)
    (by norm_num [simpleMetrics]) (by norm_num [simpleMetrics])
  constructor
  · rw [he]
    norm_num [simpleMetrics]
  · rw [he0]
    norm_num [simpleMetrics]

/-- C7: a single-node tree with `node_type = "Seq Scan"` and
`actual_rows = 5000` (all other fields at their defaults) yields exactly one
problem, of HIGH severity, describing a sequential scan on a large result
set; no other rule fires. -/
theorem claim_C7 :
    analyze_node_problems c7node =
      [{ severity := "HIGH", description := .seqScanLargeTable 5000 }] := by decide

mutual

/-- The recommendation traversal equals the per-node emissions concatenated
over the pre-order node list. -/
theorem recsEqFlatten : ∀ t : NodeMetrics,
    analyze_index_recommendations t = (flatten t).flatMap nodeRecommendations
  | .node i cs => by
    simp only [analyze_index_recommendations, flatten, List.flatMap_cons,
      recsListEqFlatten cs]

theorem recsListEqFlatten : ∀ l : List NodeMetrics,
    analyzeRecsList l = (flattenList l).flatMap nodeRecommendations
  | [] => rfl
  | c :: rest => by
    simp only [analyzeRecsList, flattenList, List.flatMap_append,
      recsEqFlatten c, recsListEqFlatten rest]

end

/-- C4 counterexample: a Merge Join node with a non-empty merge condition
(`a.x = b.y`) and named child relations yields no recommendation at all: the
node model does not even capture `Merge Cond` or `Join Filter`, so only
`Hash Cond` on Hash Join nodes can produce join recommendations. -/
theorem claim_C4_cex :
    (extract_node_metrics c4raw).map analyze_index_recommendations = .ok [] ∧
    c4raw.getS "Merge Cond" "" = "a.x = b.y" := ⟨rfl, rfl⟩

/-- C4 (amended): every recommendation arises either from a Seq Scan node's
filter, or from a Hash Join node's non-empty `hash_condition`; in the join
case the recommendation's table is the relation name of one of the join's
children and its columns are all columns extracted from the hash condition
(Merge Join and Nested Loop conditions are not captured and never emit). -/
theorem claim_C4 : ∀ t : NodeMetrics, ∀ r ∈ analyze_index_recommendations t,
    ∃ n ∈ flatten t,
      (n.node_type = "Seq Scan" ∧ r.table = n.relation_name ∧
        r.columns = extract_columns_from_condition n.filter) ∨
      (n.node_type = "Hash Join" ∧ n.hash_condition ≠ "" ∧
        r.columns = extract_join_columns n.hash_condition ∧
        ∃ c ∈ n.children, c.relation_name = r.table ∧ c.relation_name ≠ "") := by
  intro t r hr
  rw [recsEqFlatten, List.mem_flatMap] at hr
  obtain ⟨n, hn, hrn⟩ := hr
  refine ⟨n, hn, ?_⟩
  rw [nodeRecommendations, List.mem_append] at hrn
  rcases hrn with hseq | hhash
  · left
    unfold seqScanRecs at hseq
    split at hseq
    · split at hseq
      · simp only [] at hseq
        split at hseq
        · rw [List.mem_singleton] at hseq
          subst hseq
          rename_i hcond hf hcols
          exact ⟨hcond.1, rfl, rfl⟩
        · simp at hseq
      · simp at hseq
    · simp at hseq
  · right
    unfold hashJoinRecs at hhash
    split at hhash
    · simp only [] at hhash
      split at hhash
      · rw [List.mem_filterMap] at hhash
        obtain ⟨c, hc, hcr⟩ := hhash
        split at hcr
        · injection hcr with hcr
          subst hcr
          rename_i hcond hcols hrel
          exact ⟨hcond.1, hcond.2, rfl, c, hc, rfl, hrel⟩
        · cases hcr
      · simp at hhash
    · simp at hhash

/-- C4 witness: the amended claim applied to a concrete hash join and the
recommendation it emits. -/
theorem claim_C4_witness :
    ∃ n ∈ flatten c4wtree,
      (n.node_type = "Seq Scan" ∧ c4wrec.table = n.relation_name ∧
        c4wrec.columns = extract_columns_from_condition n.filter) ∨
      (n.node_type = "Hash Join" ∧ n.hash_condition ≠ "" ∧
        c4wrec.columns = extract_join_columns n.hash_condition ∧
        ∃ c ∈ n.children, c.relation_name = c4wrec.table ∧ c.relation_name ≠ "") :=
  claim_C4 c4wtree c4wrec (by decide)

theorem ioOfListAppend (xs ys : List NodeMetrics) :
    ioOfList (xs ++ ys) = (ioOfList xs).add (ioOfList ys) := by
  simp [ioOfList, IOMetrics.add, sumHit, sumRead, sumDirtied, sumWritten,
    sumTempRead, sumTempWritten]

theorem ioAddAssoc (a b c : IOMetrics) : (a.add b).add c = a.add (b.add c) := by
  simp only [IOMetrics.add, IOMetrics.mk.injEq]
  omega

mutual

/-- `extract_io_metrics` computes exactly the six tree-wide sums. -/
theorem ioEqFlatten : ∀ t : NodeMetrics, extract_io_metrics t = ioOfList (flatten t)
  | .node i cs => by
    simp only [extract_io_metrics]
    rw [ioAddChildrenEq (ownCounters i) cs]
    simp only [flatten]
    simp [ioOfList, IOMetrics.add, ownCounters, sumHit, sumRead, sumDirtied,
      sumWritten, sumTempRead, sumTempWritten, NodeMetrics.shared_hit_blocks,
      NodeMetrics.shared_read_blocks, NodeMetrics.shared_dirtied_blocks,
      NodeMetrics.shared_written_blocks, NodeMetrics.temp_read_blocks,
      NodeMetrics.temp_written_blocks, NodeMetrics.info]

theorem ioAddChildrenEq : ∀ (m : IOMetrics) (l : List NodeMetrics),
    ioAddChildren m l = m.add (ioOfList (flattenList l))
  | m, [] => by
    simp [ioAddChildren, flattenList, ioOfList, IOMetrics.add, sumHit, sumRead,
      sumDirtied, sumWritten, sumTempRead, sumTempWritten]
  | m, c :: rest => by
    simp only [ioAddChildren]
    rw [ioAddChildrenEq (m.add (extract_io_metrics c)) rest, ioEqFlatten c]
    simp only [flattenList]
    rw [ioOfListAppend, ioAddAssoc]

end

mutual

/-- The `extract_recursive` closure adds the four tree-wide shared sums to
whatever is already in the accumulator. -/
theorem bufferRecurseEq : ∀ (t : NodeMetrics) (a : BufAcc),
    bufferRecurse t a =
      { buffers_hit := a.buffers_hit + sumHit (flatten t)
        buffers_read := a.buffers_read + sumRead (flatten t)
        buffers_dirtied := a.buffers_dirtied + sumDirtied (flatten t)
        buffers_written := a.buffers_written + sumWritten (flatten t) }
  | .node i cs, a => by
    simp only [bufferRecurse]
    rw [bufferRecurseListEq cs]
    simp only [flatten]
    simp [sumHit, sumRead, sumDirtied, sumWritten, NodeMetrics.shared_hit_blocks,
      NodeMetrics.shared_read_blocks, NodeMetrics.shared_dirtied_blocks,
      NodeMetrics.shared_written_blocks, NodeMetrics.info]
    refine ⟨by ring, by ring, by ring, by ring⟩

theorem bufferRecurseListEq : ∀ (l : List NodeMetrics) (a : BufAcc),
    bufferRecurseList l a =
      { buffers_hit := a.buffers_hit + sumHit (flattenList l)
        buffers_read := a.buffers_read + sumRead (flattenList l)
        buffers_dirtied := a.buffers_dirtied + sumDirtied (flattenList l)
        buffers_written := a.buffers_written + sumWritten (flattenList l) }
  | [], a => by
    simp [bufferRecurseList, flattenList, sumHit, sumRead, sumDirtied, sumWritten]
  | c :: rest, a => by
    simp only [bufferRecurseList]
    rw [bufferRecurseListEq rest, bufferRecurseEq c]
    simp only [flattenList]
    simp [sumHit, sumRead, sumDirtied, sumWritten]
    refine ⟨by ring, by ring, by ring, by ring⟩

end

/-- `extract_buffer_stats` in terms of the four tree-wide sums. -/
theorem bufferStatsEq (t : NodeMetrics) :
    extract_buffer_stats t =
      { buffers_hit := sumHit (flatten t)
        buffers_read := sumRead (flatten t)
        buffers_dirtied := sumDirtied (flatten t)
        buffers_written := sumWritten (flatten t)
        buffers_hit_rate :=
          if sumHit (flatten t) + sumRead (flatten t) > 0 then
            ((sumHit (flatten t) : ℚ) / ((sumHit (flatten t) + sumRead (flatten t) : ℤ) : ℚ)) * 100
          else 0 } := by
  simp only [extract_buffer_stats]
  rw [bufferRecurseEq]
  simp

/-- C10: the two independent traversals `extract_buffer_stats` and
`extract_io_metrics` agree on all four shared-buffer sums. -/
theorem claim_C10 : ∀ t : NodeMetrics,
    (extract_buffer_stats t).buffers_hit = (extract_io_metrics t).shared_hit_blocks ∧
    (extract_buffer_stats t).buffers_read = (extract_io_metrics t).shared_read_blocks ∧
    (extract_buffer_stats t).buffers_dirtied = (extract_io_metrics t).shared_dirtied_blocks ∧
    (extract_buffer_stats t).buffers_written = (extract_io_metrics t).shared_written_blocks := by
  intro t
  rw [bufferStatsEq, ioEqFlatten]
  simp [ioOfList]

/-- C5 counterexample: a tree with zero hit blocks and one read block has
`buffers_hit_rate = 0` even though `hit + read = 1 ≠ 0`, so the rate is not
zero *exactly* when `hit + read = 0`. -/
theorem claim_C5_cex :
    (extract_buffer_stats c5node).buffers_hit_rate = 0 ∧
    (extract_buffer_stats c5node).buffers_hit + (extract_buffer_stats c5node).buffers_read ≠ 0 := by
  constructor
  · simp [extract_buffer_stats, bufferRecurse, bufferRecurseList, c5node]
  · simp [extract_buffer_stats, bufferRecurse, bufferRecurseList, c5node]

/-- C5 (amended): for trees with non-negative counters the buffer hit rate
lies in [0, 100], and it is 0 exactly when the tree-wide hit sum is 0 (in
particular whenever hit + read = 0, but also when hit = 0 with reads
present). -/
theorem claim_C5 : ∀ t : NodeMetrics, CountersNonneg t →
    0 ≤ (extract_buffer_stats t).buffers_hit_rate ∧
    (extract_buffer_stats t).buffers_hit_rate ≤ 100 ∧
    ((extract_buffer_stats t).buffers_hit_rate = 0 ↔
      (extract_buffer_stats t).buffers_hit = 0) := by
  intro t h
  have hhit : 0 ≤ sumHit (flatten t) := by
    apply List.sum_nonneg
    intro x hx
    rw [List.mem_map] at hx
    obtain ⟨n, hn, rfl⟩ := hx
    exact (h n hn).1
  have hread : 0 ≤ sumRead (flatten t) := by
    apply List.sum_nonneg
    intro x hx
    rw [List.mem_map] at hx
    obtain ⟨n, hn, rfl⟩ := hx
    exact (h n hn).2
  rw [bufferStatsEq]
  by_cases hpos : sumHit (flatten t) + sumRead (flatten t) > 0
  · have htot : (0 : ℚ) < ((sumHit (flatten t) + sumRead (flatten t) : ℤ) : ℚ) := by
      exact_mod_cast hpos
    have hle : ((sumHit (flatten t) : ℤ) : ℚ) ≤ ((sumHit (flatten t) + sumRead (flatten t) : ℤ) : ℚ) := by
      exact_mod_cast le_add_of_nonneg_right hread
    simp only [hpos, if_pos]
    refine ⟨?_, ?_, ?_⟩
    · apply mul_nonneg
      · exact div_nonneg (by exact_mod_cast hhit) (le_of_lt htot)
      · norm_num
    · calc ((sumHit (flatten t) : ℚ) / ((sumHit (flatten t) + sumRead (flatten t) : ℤ) : ℚ)) * 100
          ≤ 1 * 100 := by
            apply mul_le_mul_of_nonneg_right _ (by norm_num)
            rw [div_le_one htot]
            exact_mod_cast hle
      _ = 100 := by norm_num
    · rw [mul_eq_zero, div_eq_zero_iff]
      constructor
      · rintro (h1 | h1)
        · rcases h1 with h2 | h2
          · exact_mod_cast h2
          · exact absurd h2 (ne_of_gt htot)
        · norm_num at h1
      · intro h1
        left
        left
        exact_mod_cast h1
  · have hz : sumHit (flatten t) = 0 := by omega
    simp [hpos, hz]

/-- C5 witness: the amended claim applied to a concrete tree with one hit
block and three read blocks. -/
theorem claim_C5_witness :
    0 ≤ (extract_buffer_stats c5wnode).buffers_hit_rate ∧
    (extract_buffer_stats c5wnode).buffers_hit_rate ≤ 100 ∧
    ((extract_buffer_stats c5wnode).buffers_hit_rate = 0 ↔
      (extract_buffer_stats c5wnode).buffers_hit = 0) :=
  claim_C5 c5wnode (by
    intro n hn
    simp only [c5wnode, flatten, flattenList] at hn
    rw [List.mem_singleton] at hn
    subst hn
    exact ⟨by decide, by decide⟩)

theorem addStatAssoc (a b c : NodeTypeStat) :
    addStat (addStat a b) c = addStat a (addStat b c) := by
  simp only [addStat, NodeTypeStat.mk.injEq]
  refine ⟨by omega, by ring, by ring, by ring⟩

theorem addStatZeroLeft (a : NodeTypeStat) : addStat zeroNodeTypeStat a = a := by
  simp [addStat, zeroNodeTypeStat]

theorem addStatZeroRight (a : NodeTypeStat) : addStat a zeroNodeTypeStat = a := by
  simp [addStat, zeroNodeTypeStat]

theorem statOfListNil (T : String) : statOfList T [] = zeroNodeTypeStat := by
  simp [statOfList, zeroNodeTypeStat]

theorem statOfListCons (T : String) (x : NodeMetrics) (xs : List NodeMetrics) :
    statOfList T (x :: xs) =
      addStat
        (if x.node_type = T then ⟨1, x.actual_time, x.actual_rows, x.total_cost⟩
         else zeroNodeTypeStat)
        (statOfList T xs) := by
  by_cases h : x.node_type = T
  · simp only [statOfList, List.filter_cons, h, if_pos, decide_True, List.length_cons,
      List.map_cons, List.sum_cons, addStat, NodeTypeStat.mk.injEq]
    refine ⟨by omega, by ring, by ring, by ring⟩
  · simp [statOfList, List.filter_cons, h, addStat, zeroNodeTypeStat]

theorem statOfListAppend (T : String) (xs ys : List NodeMetrics) :
    statOfList T (xs ++ ys) = addStat (statOfList T xs) (statOfList T ys) := by
  simp [statOfList, List.filter_append, addStat]

theorem alookupAppendSome {α : Type} (l1 l2 : List (String × α)) (k : String) (v : α)
    (h : alookup l1 k = some v) : alookup (l1 ++ l2) k = some v := by
  induction l1 with
  | nil => cases h
  | cons e rest ih =>
    obtain ⟨k2, v2⟩ := e
    rw [alookup] at h
    rw [List.cons_append, alookup]
    split at h
    · rw [if_pos (by assumption)]
      exact h
    · rw [if_neg (by assumption)]
      exact ih h

theorem alookupAppendNone {α : Type} (l1 l2 : List (String × α)) (k : String)
    (h : alookup l1 k = none) : alookup (l1 ++ l2) k = alookup l2 k := by
  induction l1 with
  | nil => rfl
  | cons e rest ih =>
    obtain ⟨k2, v2⟩ := e
    rw [alookup] at h
    rw [List.cons_append, alookup]
    split at h
    · cases h
    · rw [if_neg (by assumption)]
      exact ih h

theorem alookupMapUpdate (l : List (String × NodeTypeStat)) (k T : String)
    (f : NodeTypeStat → NodeTypeStat) :
    alookup (l.map fun e => if e.1 = k then (e.1, f e.2) else e) T =
      if T = k then (alookup l T).map f else alookup l T := by
  induction l with
  | nil => simp [alookup]
  | cons e rest ih =>
    obtain ⟨k2, v⟩ := e
    simp only [List.map_cons]
    by_cases h1 : k2 = k
    · subst h1
      rw [show (if (k2, v).1 = k2 then ((k2, v).1, f (k2, v).2) else (k2, v)) = (k2, f v)
        from if_pos rfl]
      simp only [alookup]
      by_cases h2 : k2 = T
      · subst h2
        rw [if_pos rfl, if_pos rfl, if_pos rfl]
        rfl
      · have h2s : ¬(T = k2) := fun hh => h2 hh.symm
        rw [if_neg h2, if_neg h2s, if_neg h2, ih, if_neg h2s]
    · rw [show (if (k2, v).1 = k then ((k2, v).1, f (k2, v).2) else (k2, v)) = (k2, v)
        from if_neg h1]
      simp only [alookup]
      by_cases h2 : k2 = T
      · subst h2
        by_cases h3 : k2 = k
        · exact absurd h3 h1
        · rw [if_pos rfl, if_pos rfl, if_neg h3]
      · have h2s : ¬(T = k2) := fun hh => h2 hh.symm
        rw [if_neg h2, if_neg h2, ih]

theorem alookupNtsInit (s : List (String × NodeTypeStat)) (k T : String) :
    alookup (ntsInit s k) T =
      if T = k then some ((alookup s k).getD zeroNodeTypeStat) else alookup s T := by
  unfold ntsInit
  cases hs : alookup s k with
  | some v =>
    rw [if_pos (show (some v).isSome = true from rfl), Option.getD_some]
    by_cases h : T = k
    · subst h
      rw [if_pos rfl]
      exact hs
    · rw [if_neg h]
  | none =>
    rw [if_neg (show ¬((none : Option NodeTypeStat).isSome = true) by simp),
      Option.getD_none]
    by_cases h : T = k
    · subst h
      rw [alookupAppendNone s _ _ hs]
      rw [if_pos rfl]
      simp [alookup]
    · rw [if_neg h]
      cases ht : alookup s T with
      | some w => exact alookupAppendSome s _ T w ht
      | none =>
        rw [alookupAppendNone s _ T ht]
        have hk : ¬(k = T) := fun hh => h hh.symm
        simp [alookup, hk]

/-- The per-node dictionary update bumps exactly the node's own type key. -/
theorem lookupNtsBump (s : List (String × NodeTypeStat)) (i : NodeInfo) (T : String) :
    lookupNodeTypeStat (ntsBump s i) T =
      if i.node_type = T then
        ⟨(lookupNodeTypeStat s T).count + 1,
         (lookupNodeTypeStat s T).total_time + i.actual_time,
         (lookupNodeTypeStat s T).total_rows + i.actual_rows,
         (lookupNodeTypeStat s T).total_cost + i.total_cost⟩
      else lookupNodeTypeStat s T := by
  unfold lookupNodeTypeStat ntsBump
  rw [alookupMapUpdate (ntsInit s i.node_type) i.node_type T
    (fun st => ⟨st.count + 1, st.total_time + i.actual_time,
      st.total_rows + i.actual_rows, st.total_cost + i.total_cost⟩)]
  rw [alookupNtsInit]
  by_cases h : T = i.node_type
  · subst h
    simp only [if_pos rfl]
    cases hs : alookup s i.node_type with
    | some v => simp [hs]
    | none => simp [hs, zeroNodeTypeStat]
  · rw [if_neg h, if_neg h, if_neg (fun hh => h hh.symm)]

mutual

/-- Accumulator form of the node-type statistics traversal: the final value
at key `T` is the initial value at `T` plus this subtree's contribution. -/
theorem ntsAuxEq : ∀ (n : NodeMetrics) (s : List (String × NodeTypeStat)) (T : String),
    lookupNodeTypeStat (analyzeNodeTypeStatsAux n s) T =
      addStat (lookupNodeTypeStat s T) (statOfList T (flatten n))
  | .node i cs, s, T => by
    simp only [analyzeNodeTypeStatsAux]
    rw [ntsListEq cs (ntsBump s i) T, lookupNtsBump]
    simp only [flatten]
    rw [statOfListCons]
    have hproj : (NodeMetrics.node i cs).node_type = i.node_type := rfl
    rw [hproj]
    by_cases h : i.node_type = T
    · rw [if_pos h, if_pos h, ← addStatAssoc]
      congr 1
    · rw [if_neg h, if_neg h, addStatZeroLeft]

theorem ntsListEq : ∀ (l : List NodeMetrics) (s : List (String × NodeTypeStat)) (T : String),
    lookupNodeTypeStat (analyzeNodeTypeStatsList l s) T =
      addStat (lookupNodeTypeStat s T) (statOfList T (flattenList l))
  | [], s, T => by
    simp only [analyzeNodeTypeStatsList, flattenList, statOfListNil, addStatZeroRight]
  | c :: rest, s, T => by
    simp only [analyzeNodeTypeStatsList]
    rw [ntsListEq rest _ T, ntsAuxEq c s T]
    simp only [flattenList]
    rw [statOfListAppend, addStatAssoc]

end

/-- C9: for every tree and node type, the per-type statistics dictionary
holds exactly the number of nodes of that type together with the sums of
their stored `actual_time` (not multiplied by `actual_loops`), `actual_rows`
and `total_cost`. -/
theorem claim_C9 : ∀ (t : NodeMetrics) (T : String),
    (lookupNodeTypeStat (analyze_node_type_stats t) T).count =
        ((flatten t).filter (fun n => n.node_type = T)).length ∧
    (lookupNodeTypeStat (analyze_node_type_stats t) T).total_time =
        (((flatten t).filter (fun n => n.node_type = T)).map NodeMetrics.actual_time).sum ∧
    (lookupNodeTypeStat (analyze_node_type_stats t) T).total_rows =
        (((flatten t).filter (fun n => n.node_type = T)).map NodeMetrics.actual_rows).sum ∧
    (lookupNodeTypeStat (analyze_node_type_stats t) T).total_cost =
        (((flatten t).filter (fun n => n.node_type = T)).map NodeMetrics.total_cost).sum := by
  intro t T
  have h := ntsAuxEq t [] T
  rw [show analyze_node_type_stats t = analyzeNodeTypeStatsAux t [] from rfl]
  rw [h]
  have hz : lookupNodeTypeStat [] T = zeroNodeTypeStat := rfl
  rw [hz, addStatZeroLeft, statOfList]
  exact ⟨rfl, rfl, rfl, rfl⟩

/-- C8: on a single-node tree the poor-row-estimate rule fires exactly when
`planned_rows > 0` and `actual_rows / planned_rows` is above 10 or below
1/10 (so the division is guarded by a positive divisor, and a node with
`planned_rows = 0` never yields this problem), and any problem it produces
has MEDIUM severity. -/
theorem claim_C8 : ∀ info : NodeInfo,
    ((analyze_node_problems (.node info [])).any isPoorRowEstimate = true ↔
      (0 < info.planned_rows ∧
        (10 < (info.actual_rows : ℚ) / (info.planned_rows : ℚ) ∨
         (info.actual_rows : ℚ) / (info.planned_rows : ℚ) < 1 / 10))) ∧
    (∀ p ∈ analyze_node_problems (.node info []), isPoorRowEstimate p = true →
      p.severity = "MEDIUM") := by
  intro info
  constructor
  · simp only [analyze_node_problems, analyzeProblemsList, nodeProblems,
      NodeMetrics.node_type, NodeMetrics.actual_rows, NodeMetrics.planned_rows,
      NodeMetrics.actual_time, NodeMetrics.total_cost,
      NodeMetrics.rows_removed_by_filter, NodeMetrics.info, List.append_nil]
    split_ifs with h1 h2 h3 h4 h5 <;>
      simp_all [isPoorRowEstimate, List.any_append, gt_iff_lt]
  · intro p hp hpe
    simp only [analyze_node_problems, analyzeProblemsList, nodeProblems,
      NodeMetrics.node_type, NodeMetrics.actual_rows, NodeMetrics.planned_rows,
      NodeMetrics.actual_time, NodeMetrics.total_cost,
      NodeMetrics.rows_removed_by_filter, NodeMetrics.info, List.append_nil] at hp
    split_ifs at hp <;>
      simp_all [List.mem_append, isPoorRowEstimate] <;>
      rcases hp with rfl | rfl | rfl | rfl | rfl <;> simp_all [isPoorRowEstimate]

/-- C8 witness: a node with `planned_rows = 10` and `actual_rows = 1000`
(observed/planned = 100) makes the rule fire. -/
theorem claim_C8_witness :
    (analyze_node_problems (.node { planned_rows := 10, actual_rows := 1000 } [])).any
      isPoorRowEstimate = true :=
  (claim_C8 { planned_rows := 10, actual_rows := 1000 }).1.mpr (by norm_num)

end PgQperf
